import Mathlib

/-!
Verification of the flockwave-mavlink packet codec fragments against their
natural-language specification.  The Python sources are shallowly embedded:
byte sequences become `List Nat`, machine integers become `Nat` with explicit
masking where the source masks, the stateful CRC accumulator objects become
structures with explicit state passing, and fallible operations return
`Option`.
-/

namespace FlockwaveMavlink

/-! ## Checksum: `_x25crc_slow` (src/flockwave/protocols/mavlink/utils.py) -/

/-- One iteration of the byte loop in `_x25crc_slow.accumulate`, translated
from the source: `tmp = b ^ (accum & 0xFF)`; `tmp = (tmp ^ (tmp << 4)) & 0xFF`;
`accum = (accum >> 8) ^ (tmp << 8) ^ (tmp << 3) ^ (tmp >> 4)` (the Python
`^` chain is left-associated). -/
def crcStep (accum b : Nat) : Nat :=
  let tmp := b ^^^ (accum &&& 0xFF)
  let tmp2 := (tmp ^^^ (tmp <<< 4)) &&& 0xFF
  ((accum >>> 8) ^^^ (tmp2 <<< 8)) ^^^ (tmp2 <<< 3) ^^^ (tmp2 >>> 4)

/-- State of a `_x25crc_slow` object: its single `crc` attribute. -/
structure X25crcSlow where
  crc : Nat
  deriving Repr, DecidableEq

/-- Embedding of `_x25crc_slow.accumulate` on byte inputs.  The source copies
`self.crc` into a local `accum`, folds every byte of `buf` through the
XOR-shift recurrence and stores the result back; the `isinstance(buf, str)`
UTF-8 encoding branch is not modelled because every claim feeds byte
sequences. -/
def X25crcSlow.accumulate (self : X25crcSlow) (buf : List Nat) : X25crcSlow :=
  { crc := buf.foldl crcStep self.crc }

/-- Embedding of `_x25crc_slow.__init__`: sets `crc` to `0xFFFF`, then
accumulates the optional buffer when one is given. -/
def X25crcSlow.init (buf : Option (List Nat)) : X25crcSlow :=
  let self : X25crcSlow := { crc := 0xFFFF }
  match buf with
  | none => self
  | some b => self.accumulate b

/-! ## Checksum: spec-side reference recurrence (spec §4.1) -/

/-- Reference step written from the specification text (§4.1): for each byte
`b`, `tmp = b XOR (acc & 0xFF)`; `tmp = (tmp XOR (tmp << 4)) & 0xFF`;
`acc = (acc >> 8) XOR (tmp << 8) XOR (tmp << 3) XOR (tmp >> 4)`. -/
def referenceStep (acc b : Nat) : Nat :=
  let tmp := b ^^^ (acc &&& 0xFF)
  let tmp2 := (tmp ^^^ (tmp <<< 4)) &&& 0xFF
  ((acc >>> 8) ^^^ (tmp2 <<< 8)) ^^^ (tmp2 <<< 3) ^^^ (tmp2 >>> 4)

/-- Value of the reference recurrence of the spec on a byte sequence,
starting from the documented initial accumulator `0xFFFF`. -/
def referenceCrc (buf : List Nat) : Nat :=
  buf.foldl referenceStep 0xFFFF

/-! ## Checksum: `_x25crc_fast` (src/flockwave/protocols/mavlink/utils.py) -/

/-- Modelled from the spec: the external `fastcrc.crc16.mcrf4xx` primitive is
not part of this repository; §4.1 and §9 of the spec require the fast-path
implementation to produce output bit-identical to the reference
CRC-16/MCRF4XX recurrence, continuing from the crc value passed as second
argument. -/
def mcrf4xx (buf : List Nat) (crc : Nat) : Nat :=
  buf.foldl referenceStep crc

/-- State of a `_x25crc_fast` object: its single `crc` attribute. -/
structure X25crcFast where
  crc : Nat
  deriving Repr, DecidableEq

/-- Embedding of `_x25crc_fast.accumulate`: `self.crc = mcrf4xx(buf, self.crc)`
after converting the input to `bytes` (a no-op for byte sequences). -/
def X25crcFast.accumulate (self : X25crcFast) (buf : List Nat) : X25crcFast :=
  { crc := mcrf4xx buf self.crc }

/-- Embedding of `_x25crc_fast.__init__`: sets `crc` to `0xFFFF`, then
accumulates the optional buffer when one is given. -/
def X25crcFast.init (buf : Option (List Nat)) : X25crcFast :=
  let self : X25crcFast := { crc := 0xFFFF }
  match buf with
  | none => self
  | some b => self.accumulate b

/-- The ASCII bytes of the string "123456789", the documented
CRC-16/MCRF4XX reference check sequence. -/
def checkSequence : List Nat :=
  [0x31, 0x32, 0x33, 0x34, 0x35, 0x36, 0x37, 0x38, 0x39]

/-! ## Introspection (src/flockwave/protocols/mavlink/introspection.py) -/

/-- Python strings modelled as their sequences of Unicode code points. -/
abbrev PyStr := List Nat

/-- Code points of a Lean string literal, used to embed the Python string
literals appearing in the source. -/
def strCp (s : String) : PyStr :=
  s.data.map Char.toNat

/-- Embedding of Python `str.lower` on one code point; dialect and message
names are ASCII, so only the ASCII uppercase range is mapped. -/
def lowerCp (c : Nat) : Nat :=
  if 65 ≤ c ∧ c ≤ 90 then c + 32 else c

/-- Embedding of Python `str.lower` on a string. -/
def pyLower (s : PyStr) : PyStr :=
  s.map lowerCp

/-- A loaded Python module observed through its attribute dictionary
(`getattr`); attribute values are abstract class identifiers.  A missing
attribute (Python `AttributeError`) is `none`. -/
structure PyModule where
  attrs : PyStr → Option Nat

/-- Modelled from the spec: the Python import system together with the
generated dialect modules under `flockwave.protocols.mavlink.dialects.v20`
is not part of `src/`; it is modelled as a partial map from fully qualified
module names to modules, where `import_module` raises `ImportError` exactly
on names outside the map (spec §4.2: lookup failure is a distinct error). -/
structure PyEnv where
  modules : PyStr → Option PyModule

/-- The `dialect_pkg` module-name constant of `introspection.py` (with
`__package__` equal to `flockwave.protocols.mavlink`). -/
def dialect_pkg : PyStr :=
  strCp "flockwave.protocols.mavlink.dialects.v20."

/-- Embedding of `import_dialect`: imports the module named
`dialect_pkg + dialect`; `none` is the `ImportError` outcome. -/
def import_dialect (env : PyEnv) (dialect : PyStr) : Option PyModule :=
  env.modules (dialect_pkg ++ dialect)

/-- Embedding of `get_mavlink_message_class`: imports the dialect module,
lowercases the message type name, and looks up the attribute named
`MAVLink_` + lowercased type + `_message`. -/
def get_mavlink_message_class (env : PyEnv) (dialect ty : PyStr) : Option Nat :=
  (import_dialect env dialect).bind fun m =>
    m.attrs (strCp "MAVLink_" ++ pyLower ty ++ strCp "_message")

/-! ## Code generator patch (src/tools/generate-from-pymavlink.py) -/

/-- From `_patch_dialect_code`: the injected constant
`has_array = sum(lengths) != len(lengths)`. -/
def has_array (lengths : List Nat) : Bool :=
  lengths.sum != lengths.length

/-- From `_patch_dialect_code`: the injected constant
`cumulative_lengths = [sum(lengths[:i]) for i in range(len(lengths))]`. -/
def cumulative_lengths (lengths : List Nat) : List Nat :=
  (List.range lengths.length).map fun i => (lengths.take i).sum

/-! ## Codec (spec §4.3, §6; modelled from the spec) -/

/-- Modelled from the spec: the Message Registry descriptor interface (§4.2)
is an external collaborator whose implementation (the generated dialect
classes) is not part of `src/`.  A descriptor exposes the total payload byte
length, the `crc_extra` seed byte, and functions to serialize field values
into raw payload bytes and to deserialize raw payload bytes into field
values. -/
structure Descriptor where
  payloadLength : Nat
  crcExtra : Nat
  serialize : List Nat → List Nat
  deserialize : List Nat → Option (List Nat)

/-- Modelled from the spec: registry lookup by numeric message id (§4.2);
`none` is the distinct lookup-failure outcome. -/
def Registry : Type :=
  Nat → Option Descriptor

/-- A message as the codec sees it: numeric id, header metadata, and field
values (spec §3).  Field values are kept abstract as the list the descriptor
serializes/deserializes. -/
structure Message where
  msgId : Nat
  seq : Nat
  srcSystem : Nat
  srcComponent : Nat
  incompatFlags : Nat
  compatFlags : Nat
  fields : List Nat
  deriving Repr, DecidableEq

/-- Modelled from the spec: trim the maximal trailing run of zero bytes from
the payload (§4.3 step 1, extended header only). -/
def trimTrailingZeros (l : List Nat) : List Nat :=
  (l.reverse.dropWhile (fun b => b == 0)).reverse

/-- Checksum of a byte sequence using the Checksum component: accumulator
initialized to `0xFFFF`, all bytes folded in. -/
def crcOf (bytes : List Nat) : Nat :=
  ((X25crcSlow.init none).accumulate bytes).crc

/-- Little-endian 16-bit encoding of the checksum (§6). -/
def le16 (n : Nat) : List Nat :=
  [n % 256, (n / 256) % 256]

/-- Modelled from the spec: `pack` (§4.3, wire layout §6).  The registry
descriptor serializes the field values; under the legacy header trailing
zeros are never trimmed, under the extended header the maximal trailing run
of zero bytes is trimmed and the trimmed length recorded in the header; the
checksum covers the header bytes except the start marker, the full-length
payload (§6), and the `crc_extra` byte, stored little-endian.  Signing is
disabled (no secret key configured, §4.5: `sign` is a no-op and the signing
bit stays clear).  An unknown message id is fatal to the caller (`none`). -/
def packFrame (reg : Registry) (m : Message) (forceLegacy : Bool) :
    Option (List Nat) :=
  match reg m.msgId with
  | none => none
  | some d =>
    let payloadFull := d.serialize m.fields
    if forceLegacy then
      let headerRest := [payloadFull.length % 256, m.seq % 256,
        m.srcSystem % 256, m.srcComponent % 256, m.msgId % 256]
      let ck := crcOf (headerRest ++ payloadFull ++ [d.crcExtra])
      some (0xFE :: headerRest ++ payloadFull ++ le16 ck)
    else
      let trimmed := trimTrailingZeros payloadFull
      let headerRest := [trimmed.length % 256, m.incompatFlags % 256,
        m.compatFlags % 256, m.seq % 256, m.srcSystem % 256,
        m.srcComponent % 256, m.msgId % 256, (m.msgId / 256) % 256,
        (m.msgId / 65536) % 256]
      let ck := crcOf (headerRest ++ payloadFull ++ [d.crcExtra])
      some (0xFD :: headerRest ++ trimmed ++ le16 ck)

/-- Modelled from the spec: `unpack` of a legacy frame body (bytes after the
`0xFE` marker, §4.3/§6): reads the fixed header fields, resolves the
descriptor from the registry by the decoded message id, re-pads the payload
to the descriptor's full length with zero bytes, validates the checksum and
deserializes the payload into field values. -/
def unpackV1 (reg : Registry) (r : List Nat) : Option Message :=
  match r with
  | len :: seq :: sys :: comp :: mid :: tail =>
    if tail.length = len + 2 then
      let payload := tail.take len
      let ckBytes := tail.drop len
      match reg mid with
      | none => none
      | some d =>
        let padded := payload ++ List.replicate (d.payloadLength - payload.length) 0
        let ck := crcOf ([len, seq, sys, comp, mid] ++ padded ++ [d.crcExtra])
        if ckBytes = le16 ck then
          match d.deserialize padded with
          | none => none
          | some f => some ⟨mid, seq, sys, comp, 0, 0, f⟩
        else none
    else none
  | _ => none

/-- Modelled from the spec: `unpack` of an extended frame body (bytes after
the `0xFD` marker, §4.3/§6): reads the fixed header fields including the
24-bit little-endian message id, resolves the descriptor, re-pads the
trimmed payload with zero bytes to the descriptor's full length, validates
the checksum over the full-length payload and deserializes it. -/
def unpackV2 (reg : Registry) (r : List Nat) : Option Message :=
  match r with
  | len :: iflags :: cflags :: seq :: sys :: comp :: i0 :: i1 :: i2 :: tail =>
    if tail.length = len + 2 then
      let payload := tail.take len
      let ckBytes := tail.drop len
      let mid := i0 + 256 * i1 + 65536 * i2
      match reg mid with
      | none => none
      | some d =>
        let padded := payload ++ List.replicate (d.payloadLength - payload.length) 0
        let ck := crcOf ([len, iflags, cflags, seq, sys, comp, i0, i1, i2]
          ++ padded ++ [d.crcExtra])
        if ckBytes = le16 ck then
          match d.deserialize padded with
          | none => none
          | some f => some ⟨mid, seq, sys, comp, iflags, cflags, f⟩
        else none
    else none
  | _ => none

/-- Modelled from the spec: `unpack` dispatch on the start marker (§6):
legacy frames start with `0xFE`, extended frames with `0xFD`. -/
def unpackFrame (reg : Registry) (frame : List Nat) : Option Message :=
  match frame with
  | [] => none
  | stx :: rest =>
    if stx = 0xFE then unpackV1 reg rest
    else if stx = 0xFD then unpackV2 reg rest
    else none

/-- Concrete descriptor used to witness the round-trip theorem: two payload
bytes carried verbatim. -/
def witnessDescriptor : Descriptor :=
  { payloadLength := 2
    crcExtra := 7
    serialize := fun f => f
    deserialize := fun p => some p }

/-- Concrete registry used to witness the round-trip theorem: message id 5
maps to `witnessDescriptor`. -/
def witnessRegistry : Registry :=
  fun i => if i = 5 then some witnessDescriptor else none

/-- Concrete message used to witness the round-trip theorem; its payload has
a trailing zero byte, so the extended-header path exercises trimming. -/
def witnessMessage : Message :=
  { msgId := 5, seq := 1, srcSystem := 2, srcComponent := 3,
    incompatFlags := 0, compatFlags := 0, fields := [9, 0] }

/-! ## Helper lemmas for the CRC bound -/

theorem crcStep_lt (accum b : Nat) (h : accum < 65536) :
    crcStep accum b < 65536 := by
  unfold crcStep
  have h255 : ∀ x : Nat, x &&& 0xFF ≤ 255 := fun x => Nat.and_le_right
  set t := ((b ^^^ (accum &&& 0xFF)) ^^^ ((b ^^^ (accum &&& 0xFF)) <<< 4)) &&& 0xFF with ht
  have htle : t ≤ 255 := Nat.and_le_right
  have h1 : accum >>> 8 < 65536 := by
    have := Nat.shiftRight_eq_div_pow accum 8
    omega
  have h2 : t <<< 8 < 65536 := by
    rw [Nat.shiftLeft_eq]
    omega
  have h3 : t <<< 3 < 65536 := by
    rw [Nat.shiftLeft_eq]
    omega
  have h4 : t >>> 4 < 65536 := by
    have := Nat.shiftRight_eq_div_pow t 4
    omega
  have e16 : (65536 : Nat) = 2 ^ 16 := by norm_num
  rw [e16] at h1 h2 h3 h4 ⊢
  exact Nat.xor_lt_two_pow (Nat.xor_lt_two_pow (Nat.xor_lt_two_pow h1 h2) h3) h4

theorem foldl_crcStep_lt (buf : List Nat) (accum : Nat) (h : accum < 65536) :
    buf.foldl crcStep accum < 65536 := by
  induction buf generalizing accum with
  | nil => exact h
  | cons b rest ih => exact ih _ (crcStep_lt accum b h)

/-! ## Claim theorems for the checksum -/

/-- C1: for every sequence of input bytes, the pure-Python implementation
(`_x25crc_slow`, accumulator initialized to `0xFFFF`) computes exactly the
value of the reference CRC-16/MCRF4XX recurrence given in the spec. -/
theorem c1_slow_matches_reference (buf : List Nat) :
    ((X25crcSlow.init none).accumulate buf).crc = referenceCrc buf := by
  have hstep : crcStep = referenceStep := rfl
  simp [X25crcSlow.accumulate, X25crcSlow.init, referenceCrc, hstep]

/-- C2: the fast CRC implementation (`_x25crc_fast`, delegating to the
platform `mcrf4xx` primitive, modelled from the spec's bit-identical output
requirement) and the pure fallback `_x25crc_slow` produce identical crc
values, both when a buffer is passed to the constructor and across any
sequence of `accumulate` calls on the same inputs. -/
theorem c2_fast_eq_slow (buf : List Nat) (calls : List (List Nat)) :
    (X25crcFast.init (some buf)).crc = (X25crcSlow.init (some buf)).crc ∧
    (calls.foldl X25crcFast.accumulate (X25crcFast.init none)).crc =
      (calls.foldl X25crcSlow.accumulate (X25crcSlow.init none)).crc := by
  constructor
  · rfl
  · have key : ∀ (cs : List (List Nat)) (f : X25crcFast) (s : X25crcSlow),
        f.crc = s.crc →
        (cs.foldl X25crcFast.accumulate f).crc =
          (cs.foldl X25crcSlow.accumulate s).crc := by
      intro cs
      induction cs with
      | nil => intro f s h; exact h
      | cons c rest ih =>
        intro f s h
        apply ih
        simp [X25crcFast.accumulate, X25crcSlow.accumulate, mcrf4xx, h]
        rfl
    exact key calls _ _ rfl

/-- C3: the checksum applied to the ASCII bytes of "123456789" produces the
documented CRC-16/MCRF4XX reference check value `0x6F91`, in both the pure
and the fast implementation. -/
theorem c3_reference_vector :
    (X25crcSlow.init (some checkSequence)).crc = 0x6F91 ∧
    (X25crcFast.init (some checkSequence)).crc = 0x6F91 := by
  constructor <;> rfl

/-- C4: the CRC accumulator always fits in 16 bits: starting from `0xFFFF`,
after any sequence of `accumulate` calls the `crc` attribute satisfies
`crc ≤ 0xFFFF` (and it is a `Nat`, hence nonnegative). -/
theorem c4_crc_fits_16_bits (calls : List (List Nat)) :
    (calls.foldl X25crcSlow.accumulate (X25crcSlow.init none)).crc ≤ 0xFFFF := by
  have key : ∀ (cs : List (List Nat)) (s : X25crcSlow), s.crc < 65536 →
      (cs.foldl X25crcSlow.accumulate s).crc < 65536 := by
    intro cs
    induction cs with
    | nil => intro s h; exact h
    | cons c rest ih =>
      intro s h
      exact ih _ (foldl_crcStep_lt c s.crc h)
  have := key calls (X25crcSlow.init none) (by decide)
  omega

/-- C5: CRC accumulation is a homomorphism over byte-sequence concatenation:
accumulating `a` then `b` leaves the same crc as accumulating `a ++ b` in one
call, and accumulating the empty sequence leaves the accumulator unchanged. -/
theorem c5_accumulate_append (s : X25crcSlow) (a b : List Nat) :
    ((s.accumulate a).accumulate b).crc = (s.accumulate (a ++ b)).crc ∧
    (s.accumulate []).crc = s.crc := by
  constructor
  · simp [X25crcSlow.accumulate, List.foldl_append]
  · rfl

/-- C10: constructing a CRC accumulator with an initial buffer is equivalent
to constructing it empty and then accumulating that buffer, for both
implementations; with no buffer the crc is exactly `0xFFFF` after
construction. -/
theorem c10_init_buffer_eq_accumulate (buf : List Nat) :
    (X25crcSlow.init (some buf)).crc = ((X25crcSlow.init none).accumulate buf).crc ∧
    (X25crcFast.init (some buf)).crc = ((X25crcFast.init none).accumulate buf).crc ∧
    (X25crcSlow.init none).crc = 0xFFFF ∧
    (X25crcFast.init none).crc = 0xFFFF := by
  refine ⟨rfl, rfl, rfl, rfl⟩

theorem lowerCp_idem (c : Nat) : lowerCp (lowerCp c) = lowerCp c := by
  unfold lowerCp
  split
  · rw [if_neg (by omega)]
  · rfl

theorem pyLower_idem (s : PyStr) : pyLower (pyLower s) = pyLower s := by
  simp [pyLower, List.map_map, Function.comp_def, lowerCp_idem]

/-- C7: message-class lookup by symbolic name is case-insensitive: for every
dialect and type name, `get_mavlink_message_class` returns the same class on
the name and on its lowercased form, so the result depends only on the
lowercased name. -/
theorem c7_lookup_case_insensitive (env : PyEnv) (dialect ty : PyStr) :
    get_mavlink_message_class env dialect ty =
      get_mavlink_message_class env dialect (pyLower ty) := by
  simp [get_mavlink_message_class, pyLower_idem]

/-- C8: `import_dialect` is exactly a lookup of the module named
`dialect_pkg ++ dialect` in the import environment: it returns that module
when it exists, and its `ImportError` outcome (`none`) occurs exactly when no
module of that name exists — a distinct, catchable error kind. -/
theorem c8_import_dialect_lookup (env : PyEnv) (dialect : PyStr) :
    import_dialect env dialect = env.modules (dialect_pkg ++ dialect) ∧
    (import_dialect env dialect = none ↔
      env.modules (dialect_pkg ++ dialect) = none) := by
  exact ⟨rfl, Iff.rfl⟩

/-- C9: the code generator's fast-path patch is observationally equivalent to
the original checks: `sum(lengths) == len(lengths)` holds iff `not has_array`,
and for every valid index `i`, `cumulative_lengths[i]` equals
`sum(lengths[:i])`, so `tip = clen_map[order]` computes the same value as
`tip = sum(len_map[:order])`. -/
theorem c9_generator_patch (lengths : List Nat) :
    ((lengths.sum = lengths.length) ↔ has_array lengths = false) ∧
    ∀ i (h : i < (cumulative_lengths lengths).length),
      (cumulative_lengths lengths).get ⟨i, h⟩ = (lengths.take i).sum := by
  constructor
  · simp [has_array]
  · intro i h
    simp [cumulative_lengths]

/-- Witness for C9 at the concrete length map `[2, 3]` and index `1`. -/
theorem c9_generator_patch_witness :
    (([2, 3] : List Nat).sum = ([2, 3] : List Nat).length ↔
      has_array [2, 3] = false) ∧
    (cumulative_lengths [2, 3]).get ⟨1, by decide⟩ = 2 := by
  refine ⟨(c9_generator_patch [2, 3]).1, ?_⟩
  have h := (c9_generator_patch [2, 3]).2 1 (by decide)
  simpa using h

theorem trimTrailingZeros_pad (l : List Nat) :
    trimTrailingZeros l ++
      List.replicate (l.length - (trimTrailingZeros l).length) 0 = l := by
  have hzeros : l.reverse.takeWhile (fun b => b == 0) =
      List.replicate (l.reverse.takeWhile (fun b => b == 0)).length 0 := by
    apply List.eq_replicate_of_mem
    intro b hb
    have hpb := List.mem_takeWhile_imp hb
    simpa using hpb
  have hl : l = trimTrailingZeros l ++
      (l.reverse.takeWhile (fun b => b == 0)).reverse := by
    conv_lhs =>
      rw [← List.reverse_reverse l,
        ← List.takeWhile_append_dropWhile (fun b : Nat => b == 0) l.reverse,
        List.reverse_append]
    rfl
  have hlen : l.length = (trimTrailingZeros l).length +
      (l.reverse.takeWhile (fun b => b == 0)).length := by
    conv_lhs => rw [hl]
    simp
  have hrev : (l.reverse.takeWhile (fun b => b == 0)).reverse =
      List.replicate (l.reverse.takeWhile (fun b => b == 0)).length 0 := by
    conv_lhs => rw [hzeros]
    rw [List.reverse_replicate]
  have hcount : l.length - (trimTrailingZeros l).length =
      (l.reverse.takeWhile (fun b => b == 0)).length := by omega
  rw [hcount, ← hrev, ← hl]

theorem trimTrailingZeros_length_le (l : List Nat) :
    (trimTrailingZeros l).length ≤ l.length := by
  have h := congrArg List.length (trimTrailingZeros_pad l)
  simp only [List.length_append, List.length_replicate] at h
  omega

/-- C6: pack/unpack round-trip (modelled from the spec, §4.3/§6/§8): for
every message constructible from a registry descriptor — the registry
resolves its id to a descriptor whose serializer and deserializer are
mutually inverse on its field values, the payload fits the 8-bit length
field, and the header fields are in wire range for the chosen version —
decoding the bytes produced by `pack` yields the message back: equal
message id, header metadata and field values, under either header
version. -/
theorem c6_pack_unpack_roundtrip (reg : Registry) (m : Message)
    (d : Descriptor) (forceLegacy : Bool)
    (hreg : reg m.msgId = some d)
    (hser : (d.serialize m.fields).length = d.payloadLength)
    (hdes : d.deserialize (d.serialize m.fields) = some m.fields)
    (hplen : d.payloadLength ≤ 255)
    (hseq : m.seq < 256) (hsys : m.srcSystem < 256)
    (hcomp : m.srcComponent < 256)
    (hid : if forceLegacy then m.msgId < 256 else m.msgId < 16777216)
    (hflags : if forceLegacy then m.incompatFlags = 0 ∧ m.compatFlags = 0
      else m.incompatFlags < 256 ∧ m.compatFlags < 256) :
    (packFrame reg m forceLegacy).bind (unpackFrame reg) = some m := by
  obtain ⟨mid, seq, sys, comp, ifl, cfl, flds⟩ := m
  simp only at hreg hser hdes hseq hsys hcomp hid hflags
  cases forceLegacy with
  | true =>
    rw [if_pos rfl] at hid hflags
    obtain ⟨hif0, hcf0⟩ := hflags
    subst hif0
    subst hcf0
    have h1 : (d.serialize flds).length % 256 = (d.serialize flds).length :=
      Nat.mod_eq_of_lt (by omega)
    have h2 : seq % 256 = seq := Nat.mod_eq_of_lt hseq
    have h3 : sys % 256 = sys := Nat.mod_eq_of_lt hsys
    have h4 : comp % 256 = comp := Nat.mod_eq_of_lt hcomp
    have h5 : mid % 256 = mid := Nat.mod_eq_of_lt hid
    have hsub : d.payloadLength - (d.serialize flds).length = 0 := by omega
    simp only [packFrame, hreg, if_true, h1, h2, h3, h4, h5,
      Option.some_bind, unpackFrame, List.cons_append, List.nil_append,
      unpackV1]
    simp only [le16, List.length_append, List.length_cons, List.length_nil,
      List.cons_append, List.nil_append]
    simp only [Nat.zero_add, Nat.add_zero, eq_self_iff_true, if_true,
      List.take_left, List.drop_left, hreg, hsub, List.replicate_zero,
      List.append_nil, hdes]
  | false =>
    rw [if_neg Bool.false_ne_true] at hid hflags
    obtain ⟨hifl, hcfl⟩ := hflags
    have htrle : (trimTrailingZeros (d.serialize flds)).length ≤ 255 := by
      have := trimTrailingZeros_length_le (d.serialize flds)
      omega
    have h1 : (trimTrailingZeros (d.serialize flds)).length % 256 =
        (trimTrailingZeros (d.serialize flds)).length :=
      Nat.mod_eq_of_lt (by omega)
    have h2 : seq % 256 = seq := Nat.mod_eq_of_lt hseq
    have h3 : sys % 256 = sys := Nat.mod_eq_of_lt hsys
    have h4 : comp % 256 = comp := Nat.mod_eq_of_lt hcomp
    have h6 : ifl % 256 = ifl := Nat.mod_eq_of_lt hifl
    have h7 : cfl % 256 = cfl := Nat.mod_eq_of_lt hcfl
    have hmid : mid % 256 + 256 * (mid / 256 % 256) +
        65536 * (mid / 65536 % 256) = mid := by omega
    have htrp : trimTrailingZeros (d.serialize flds) ++
        List.replicate
          (d.payloadLength - (trimTrailingZeros (d.serialize flds)).length)
          0 = d.serialize flds := by
      have h := trimTrailingZeros_pad (d.serialize flds)
      rw [hser] at h
      exact h
    simp only [packFrame, hreg, Bool.false_eq_true, if_false, h1, h2, h3,
      h4, h6, h7, Option.some_bind, unpackFrame, List.cons_append,
      List.nil_append, unpackV2]
    simp only [le16, List.length_append, List.length_cons, List.length_nil,
      List.cons_append, List.nil_append]
    simp only [Nat.zero_add, Nat.add_zero, eq_self_iff_true, if_true,
      List.take_left, List.drop_left, hmid, hreg, htrp, hdes]
    rw [if_neg (by decide)]

/-- Witness for C6: a concrete registry, descriptor and message (with a
trailing zero payload byte exercising extended-header trimming) for which
the packed frame decodes back to the message. -/
theorem c6_pack_unpack_roundtrip_witness :
    witnessRegistry witnessMessage.msgId = some witnessDescriptor ∧
    (witnessDescriptor.serialize witnessMessage.fields).length =
      witnessDescriptor.payloadLength ∧
    witnessDescriptor.deserialize
        (witnessDescriptor.serialize witnessMessage.fields) =
      some witnessMessage.fields ∧
    witnessDescriptor.payloadLength ≤ 255 ∧
    (packFrame witnessRegistry witnessMessage false).bind
        (unpackFrame witnessRegistry) = some witnessMessage := by
  refine ⟨rfl, rfl, rfl, by decide, ?_⟩
  exact c6_pack_unpack_roundtrip witnessRegistry witnessMessage
    witnessDescriptor false rfl rfl rfl (by decide) (by decide) (by decide)
    (by decide) (by decide) (by decide)

end FlockwaveMavlink
